import Mathlib

/-!
Verification of the event-sourcing examples: a calculator actor
(ch1-calculator) and an account-balance ledger actor (ch2-account-balance).
Definitions are shallow embeddings of the Rust source: commands, events,
per-actor state, the command-to-event validation step, the event
application step, and a sequential model of the named registry used by
the ledger.  Machine integers (i64) are modelled as Int; the division in
the calculator uses Int.tdiv, which truncates toward zero exactly as
Rust integer division does.
-/

/-! ## ch1-calculator: data model -/

structure CalculatorState where
  value : Int
deriving DecidableEq, Repr

inductive CalculatorCommand where
  | add (value : Int)
  | sub (value : Int)
  | mul (value : Int)
  | div (value : Int)
deriving DecidableEq, Repr

inductive CalculatorEvent where
  | didAdd (value : Int)
  | didSub (value : Int)
  | didMul (value : Int)
  | didDiv (value : Int)
deriving DecidableEq, Repr

inductive CalculatorError where
  | divisionByZero
deriving DecidableEq, Repr

/-- `CalculatorState::handle_command`: validates a command against the
current state, returning the derived event or a domain error.  The
`Div { value: 0 }` arm of the Rust match is rendered as a test for zero. -/
def CalculatorState.handle_command (s : CalculatorState) (c : CalculatorCommand) :
    Except CalculatorError CalculatorEvent :=
  match c with
  | .add value => .ok (.didAdd value)
  | .sub value => .ok (.didSub value)
  | .mul value => .ok (.didMul value)
  | .div value => if value = 0 then .error .divisionByZero else .ok (.didDiv value)

/-- `CalculatorState::handle_event`: applies an event to the state.  The
Rust body mutates `self.value` and returns `Ok(())` unconditionally, so it
is embedded as a total function returning the new state. -/
def CalculatorState.handle_event (s : CalculatorState) (e : CalculatorEvent) :
    CalculatorState :=
  match e with
  | .didAdd value => { value := s.value + value }
  | .didSub value => { value := s.value - value }
  | .didMul value => { value := s.value * value }
  | .didDiv value => { value := s.value.tdiv value }

/-- `Calculator::handle`: derives an event from the command and applies it;
on a domain error it logs and returns `Ok(())` with the state untouched.
Both arms return `Except.ok`, mirroring the Rust handler which never
returns `Err`. -/
def Calculator.handle (s : CalculatorState) (c : CalculatorCommand) :
    Except Unit CalculatorState :=
  match s.handle_command c with
  | .ok event => .ok (s.handle_event event)
  | .error _ => .ok s

/-- One actor-runtime step: a successful handler invocation installs the new
state; the actor keeps running with its state for the next message. -/
def Calculator.step (s : CalculatorState) (c : CalculatorCommand) : CalculatorState :=
  match Calculator.handle s c with
  | .ok s2 => s2
  | .error _ => s

/-- The mailbox delivers the commands one at a time, in order. -/
def Calculator.run (s : CalculatorState) (cs : List CalculatorCommand) : CalculatorState :=
  cs.foldl Calculator.step s

/-- The Rust `handle_command` reads no field of `self`: validation depends on
the command alone. -/
theorem handle_command_indep (s t : CalculatorState) (c : CalculatorCommand) :
    s.handle_command c = t.handle_command c := by
  cases c <;> rfl

/-- Claim C9: calculator command validation is state-independent — for every
command and every pair of states, `handle_command` produces the same result
(the same event or the same error). -/
theorem calc_validation_state_independent (c : CalculatorCommand)
    (s1 s2 : CalculatorState) :
    s1.handle_command c = s2.handle_command c :=
  handle_command_indep s1 s2 c

/-- Claim C2: for every state, the command `Div { value: 0 }` produces no
event (a `DivisionByZero` domain error instead), the handler still returns
success with the state unchanged, and the next command is processed exactly
as it would have been without the rejected division. -/
theorem calc_div_zero_is_noop (s : CalculatorState) :
    s.handle_command (.div 0) = .error .divisionByZero ∧
    Calculator.handle s (.div 0) = .ok s ∧
    Calculator.step s (.div 0) = s ∧
    ∀ c : CalculatorCommand, Calculator.run s [.div 0, c] = Calculator.run s [c] := by
  refine ⟨rfl, rfl, rfl, fun c => rfl⟩

/-- Claim C3: from value 0, the command sequence Add 8, Div 2, Div 0, Mul 3,
Sub 9 passes through the intermediate values 8, 4, 4 (the division by zero
is rejected), 12, and ends at 3. -/
theorem calc_scenario :
    (Calculator.run ⟨0⟩ [.add 8]).value = 8 ∧
    (Calculator.run ⟨0⟩ [.add 8, .div 2]).value = 4 ∧
    (Calculator.run ⟨0⟩ [.add 8, .div 2, .div 0]).value = 4 ∧
    (Calculator.run ⟨0⟩ [.add 8, .div 2, .div 0, .mul 3]).value = 12 ∧
    (Calculator.run ⟨0⟩ [.add 8, .div 2, .div 0, .mul 3, .sub 9]).value = 3 := by
  decide

/-- Claim C8: for every value and non-zero divisor, `Div` updates the state
to the truncated-toward-zero integer quotient: on non-negative operands it
is natural-number division, it is antisymmetric in the sign of either
operand, and 7 / 2 = 3 while -7 / 2 = -3. -/
theorem calc_div_truncates_toward_zero (v d : Int) (hd : d ≠ 0) :
    Calculator.handle ⟨v⟩ (.div d) = .ok ⟨v.tdiv d⟩ ∧
    (0 ≤ v → 0 ≤ d → v.tdiv d = ((v.toNat / d.toNat : Nat) : Int)) ∧
    (-v).tdiv d = -(v.tdiv d) ∧
    v.tdiv (-d) = -(v.tdiv d) ∧
    Calculator.handle ⟨7⟩ (.div 2) = .ok ⟨3⟩ ∧
    Calculator.handle ⟨-7⟩ (.div 2) = .ok ⟨-3⟩ := by
  refine ⟨?_, ?_, Int.neg_tdiv v d, Int.tdiv_neg v d, rfl, rfl⟩
  · simp [Calculator.handle, CalculatorState.handle_command,
      CalculatorState.handle_event, hd]
  · intro hv hdpos
    rw [← Int.toNat_of_nonneg hv, ← Int.toNat_of_nonneg hdpos]
    rw [Int.ofNat_tdiv]
    simp

/-- Claim C1: for every sequence of valid commands (every command derives an
event under `handle_command`) from any initial state, running the actor
equals the left-fold of `handle_event` over the derived events: replaying
the events deterministically reproduces the final state. -/
theorem calc_replay_is_event_fold (init : CalculatorState)
    (cs : List CalculatorCommand)
    (hvalid : ∀ c ∈ cs, ∃ e, init.handle_command c = Except.ok e) :
    Calculator.run init cs =
      List.foldl CalculatorState.handle_event init
        (cs.filterMap fun c => (init.handle_command c).toOption) := by
  induction cs generalizing init with
  | nil => rfl
  | cons c cs ih =>
    obtain ⟨e, he⟩ := hvalid c (List.mem_cons_self c cs)
    have hstep : Calculator.step init c = init.handle_event e := by
      simp [Calculator.step, Calculator.handle, he]
    have hrun : Calculator.run init (c :: cs) = Calculator.run (init.handle_event e) cs := by
      simp only [Calculator.run, List.foldl_cons, hstep]
    have hrest := ih (init.handle_event e) (fun c2 hc2 => by
      obtain ⟨e2, he2⟩ := hvalid c2 (List.mem_cons_of_mem c hc2)
      exact ⟨e2, (handle_command_indep (init.handle_event e) init c2).trans he2⟩)
    have hf : (fun c2 => ((init.handle_event e).handle_command c2).toOption)
        = fun c2 => (init.handle_command c2).toOption := by
      funext c2
      rw [handle_command_indep (init.handle_event e) init c2]
    rw [hrun, hrest, hf, List.filterMap_cons, he]
    rfl

/-- Witness for C1: the sequence Add 8, Div 2 from value 0. -/
theorem calc_replay_is_event_fold_witness :
    Calculator.run ⟨0⟩ [.add 8, .div 2] =
      List.foldl CalculatorState.handle_event ⟨0⟩
        ([CalculatorCommand.add 8, .div 2].filterMap fun c =>
          (CalculatorState.handle_command ⟨0⟩ c).toOption) :=
  calc_replay_is_event_fold ⟨0⟩ [.add 8, .div 2] (by
    intro c hc
    simp only [List.mem_cons, List.not_mem_nil, or_false] at hc
    rcases hc with rfl | rfl
    · exact ⟨.didAdd 8, rfl⟩
    · exact ⟨.didDiv 2, rfl⟩)

/-- Witness for C8 at v = 7, d = 2. -/
theorem calc_div_truncates_toward_zero_witness :
    Calculator.handle ⟨(7 : Int)⟩ (.div 2) = .ok ⟨Int.tdiv 7 2⟩ ∧
    (0 ≤ (7 : Int) → 0 ≤ (2 : Int) →
      Int.tdiv 7 2 = (((7 : Int).toNat / (2 : Int).toNat : Nat) : Int)) ∧
    (-(7 : Int)).tdiv 2 = -(Int.tdiv 7 2) ∧
    Int.tdiv 7 (-2) = -(Int.tdiv 7 2) ∧
    Calculator.handle ⟨7⟩ (.div 2) = .ok ⟨3⟩ ∧
    Calculator.handle ⟨-7⟩ (.div 2) = .ok ⟨-3⟩ :=
  calc_div_truncates_toward_zero 7 2 (by decide)

/-! ## ch2-account-balance: data model -/

structure AccountBalanceArgs where
  initial_balance : Int
  account_number : String
deriving DecidableEq, Repr

/-- `AccountBalanceArgs::new`: a fresh account starts at balance 0. -/
def AccountBalanceArgs.new (account_number : String) : AccountBalanceArgs :=
  { initial_balance := 0, account_number := account_number }

inductive AccountBalanceEventPayload where
  | amountWithdrawn (value : Int)
  | amountDeposited (value : Int)
  | feeApplied (value : Int)
deriving DecidableEq, Repr

structure AccountBalanceEvent where
  account_number : String
  payload : AccountBalanceEventPayload
deriving DecidableEq, Repr

/-- Messages of the ledger actor.  The reply port carried by `GetBalance`
is modelled by the `Option Int` component of the handler result. -/
inductive AccountBalanceMessage where
  | applyEvent (event : AccountBalanceEvent)
  | getBalance
deriving DecidableEq, Repr

structure AccountBalanceState where
  balance : Int
deriving DecidableEq, Repr

/-- `AccountBalance::pre_start`: the initial state of a spawned actor. -/
def AccountBalance.pre_start (args : AccountBalanceArgs) : AccountBalanceState :=
  { balance := args.initial_balance }

/-- `AccountBalance::handle`: `ApplyEvent` updates the balance by the
payload with no reply; `GetBalance` writes the current balance to the
reply port and leaves the state alone.  The Rust body returns `Ok(())`
unconditionally, so the embedding is a total function; the second
component is the value written to the reply port, if any. -/
def AccountBalance.handle (s : AccountBalanceState) (m : AccountBalanceMessage) :
    AccountBalanceState × Option Int :=
  match m with
  | .applyEvent event =>
    match event.payload with
    | .amountDeposited value => ({ balance := s.balance + value }, none)
    | .amountWithdrawn value => ({ balance := s.balance - value }, none)
    | .feeApplied value => ({ balance := s.balance - value }, none)
  | .getBalance => (s, some s.balance)

/-- The registry-key scheme: the actor kind followed by a slash and the
caller-supplied identifier, as in `format!("{}/{}", type_name, account)`. -/
def viaName (kind account_number : String) : String :=
  kind ++ "/" ++ account_number

/-- The value of `std::any::type_name::<AccountBalance>()`, the kind part
of the ledger's registry keys. -/
def AccountBalance.typeName : String := "ch2_account_balance::AccountBalance"

/-- `AccountBalance::via`: the registry key of an account's actor. -/
def AccountBalance.via (account_number : String) : String :=
  viaName AccountBalance.typeName account_number

/-- The process-wide registry, reduced to the ledger actors it holds:
each entry maps a registry key to the private state of the live actor
registered under it. -/
def Registry := List (String × AccountBalanceState)

/-- `AccountBalance::where_is`: non-blocking lookup by registry key. -/
def AccountBalance.where_is (reg : Registry) (account_number : String) :
    Option AccountBalanceState :=
  List.lookup (AccountBalance.via account_number) reg

/-- `AccountBalance::spawn`: registers a fresh actor under the account's
registry key with its `pre_start` state. -/
def AccountBalance.spawn (reg : Registry) (args : AccountBalanceArgs) : Registry :=
  (AccountBalance.via args.account_number, AccountBalance.pre_start args) :: reg

/-- Delivery of one message to the actor registered under `name`: its state
is replaced by the state component of its handler result. -/
def Registry.deliver (reg : Registry) (name : String) (m : AccountBalanceMessage) :
    Registry :=
  reg.map fun p => if p.1 = name then (p.1, (AccountBalance.handle p.2 m).1) else p

/-- `AccountBalance::apply_event`: looks the account's actor up, spawns it
with default arguments on a miss, then sends it the `ApplyEvent` message. -/
def AccountBalance.apply_event (reg : Registry) (event : AccountBalanceEvent) :
    Registry :=
  let reg2 := match AccountBalance.where_is reg event.account_number with
    | some _ => reg
    | none => AccountBalance.spawn reg (AccountBalanceArgs.new event.account_number)
  Registry.deliver reg2 (AccountBalance.via event.account_number) (.applyEvent event)

/-- `AccountBalance::get_balance`: on a registered account the call returns
the balance the actor writes to the reply port; on an unregistered account
it returns `none` without error. -/
def AccountBalance.get_balance (reg : Registry) (account_number : String) :
    Option Int :=
  match AccountBalance.where_is reg account_number with
  | some s => (AccountBalance.handle s .getBalance).2
  | none => none

/-- The registry after the two `apply_event` calls of the ch2 main program:
a deposit of 100 into ACCOUNT1 followed by a fee of 5. -/
def ledgerMainRegistry : Registry :=
  AccountBalance.apply_event
    (AccountBalance.apply_event [] ⟨"ACCOUNT1", .amountDeposited 100⟩)
    ⟨"ACCOUNT1", .feeApplied 5⟩

/-- Claim C7: handling a `GetBalance` query writes the current balance to
the reply port and leaves the state unchanged, for every state; delivering
it through the registry likewise leaves every registered actor unchanged. -/
theorem ledger_get_balance_is_readonly (s : AccountBalanceState) :
    AccountBalance.handle s .getBalance = (s, some s.balance) ∧
    ∀ (reg : Registry) (name : String),
      Registry.deliver reg name .getBalance = reg := by
  refine ⟨rfl, fun reg name => ?_⟩
  simp [Registry.deliver, AccountBalance.handle]

/-- Claim C4: on the empty registry, ACCOUNT1 is unregistered; a deposit of
100 auto-spawns it at balance 0 and leaves it at 100; a fee of 5 brings it
to 95; `get_balance` then answers some 95 for ACCOUNT1 and the distinguished
`none` for the never-spawned ACCOUNT2. -/
theorem ledger_main_scenario :
    AccountBalance.where_is [] "ACCOUNT1" = none ∧
    AccountBalance.get_balance
      (AccountBalance.apply_event [] ⟨"ACCOUNT1", .amountDeposited 100⟩)
      "ACCOUNT1" = some 100 ∧
    AccountBalance.get_balance ledgerMainRegistry "ACCOUNT1" = some 95 ∧
    AccountBalance.get_balance ledgerMainRegistry "ACCOUNT2" = none := by
  decide

/-- Claim C6: the registry key is composed deterministically as
`<kind>/<identifier>`, and for a fixed identifier two distinct kinds always
yield distinct keys. -/
theorem registry_key_distinct_across_kinds (k1 k2 a : String) (h : k1 ≠ k2) :
    AccountBalance.via a = viaName AccountBalance.typeName a ∧
    viaName k1 a ≠ viaName k2 a := by
  refine ⟨rfl, fun heq => h ?_⟩
  have hdata := congrArg String.data heq
  simp only [viaName, String.data_append, List.append_assoc] at hdata
  exact String.ext (List.append_cancel_right hdata)

/-- Witness for C6 with kinds A and B and identifier x. -/
theorem registry_key_distinct_across_kinds_witness :
    AccountBalance.via "x" = viaName AccountBalance.typeName "x" ∧
    viaName "A" "x" ≠ viaName "B" "x" :=
  registry_key_distinct_across_kinds "A" "B" "x" (by decide)

/-- Claim C10: the ledger validates nothing: every `ApplyEvent` succeeds and
updates the balance unconditionally (deposit adds, withdrawal and fee
subtract), so a withdrawal or fee sent to a freshly auto-spawned account
(initial balance 0) leaves a negative balance instead of a rejection. -/
theorem ledger_applies_events_unvalidated (s : AccountBalanceState) (a : String)
    (v : Int) (hv : 0 < v) :
    AccountBalance.handle s (.applyEvent ⟨a, .amountDeposited v⟩)
      = ({ balance := s.balance + v }, none) ∧
    AccountBalance.handle s (.applyEvent ⟨a, .amountWithdrawn v⟩)
      = ({ balance := s.balance - v }, none) ∧
    AccountBalance.handle s (.applyEvent ⟨a, .feeApplied v⟩)
      = ({ balance := s.balance - v }, none) ∧
    AccountBalance.get_balance
      (AccountBalance.apply_event [] ⟨a, .amountWithdrawn v⟩) a = some (-v) ∧
    AccountBalance.get_balance
      (AccountBalance.apply_event [] ⟨a, .feeApplied v⟩) a = some (-v) ∧
    -v < 0 := by
  have hfresh : ∀ p : AccountBalanceEventPayload,
      AccountBalance.apply_event [] ⟨a, p⟩
        = [(AccountBalance.via a,
            (AccountBalance.handle ⟨0⟩ (.applyEvent ⟨a, p⟩)).1)] := by
    intro p
    show Registry.deliver (AccountBalance.spawn [] (AccountBalanceArgs.new a))
        (AccountBalance.via a) (.applyEvent ⟨a, p⟩) = _
    simp only [AccountBalance.spawn, AccountBalanceArgs.new,
      AccountBalance.pre_start, Registry.deliver, List.map, if_true]
  have hget : ∀ st : AccountBalanceState,
      AccountBalance.get_balance [(AccountBalance.via a, st)] a = some st.balance := by
    intro st
    simp [AccountBalance.get_balance, AccountBalance.where_is, List.lookup,
      AccountBalance.handle]
  refine ⟨rfl, rfl, rfl, ?_, ?_, by omega⟩ <;>
    · rw [hfresh, hget]
      simp [AccountBalance.handle]

/-- Witness for C10 at balance 0, account ACCOUNT9, value 1. -/
theorem ledger_applies_events_unvalidated_witness :
    AccountBalance.handle ⟨0⟩ (.applyEvent ⟨"ACCOUNT9", .amountDeposited 1⟩)
      = ({ balance := (0 : Int) + 1 }, none) ∧
    AccountBalance.handle ⟨0⟩ (.applyEvent ⟨"ACCOUNT9", .amountWithdrawn 1⟩)
      = ({ balance := (0 : Int) - 1 }, none) ∧
    AccountBalance.handle ⟨0⟩ (.applyEvent ⟨"ACCOUNT9", .feeApplied 1⟩)
      = ({ balance := (0 : Int) - 1 }, none) ∧
    AccountBalance.get_balance
      (AccountBalance.apply_event [] ⟨"ACCOUNT9", .amountWithdrawn 1⟩)
      "ACCOUNT9" = some (-1) ∧
    AccountBalance.get_balance
      (AccountBalance.apply_event [] ⟨"ACCOUNT9", .feeApplied 1⟩)
      "ACCOUNT9" = some (-1) ∧
    -(1 : Int) < 0 :=
  ledger_applies_events_unvalidated ⟨0⟩ "ACCOUNT9" 1 (by decide)
